import Mathlib

/-!
# Verification of the BMS logbook binary codec (`src/logbook.rs`)

A shallow embedding of the logbook codec in `src/logbook.rs`.  Bytes are
modeled as `Nat` (every byte handled by the codec is `< 256`); byte streams
as `List Nat`; fallible operations (`anyhow::Result`) as `Except String`;
Rust `assert!` panics are modeled as `Except.error` values as well, since in
both cases the surrounding operation does not complete normally.  The two
`f32` fields are modeled by their 32-bit little-endian bit pattern (a `Nat`
below `2 ^ 32`), which is exactly what `read_f32::<LE>`/`write_f32::<LE>`
transport; the codec never computes with the float values.
-/

deriving instance DecidableEq for Except

namespace BmsLogcat

/-! ## Little-endian integer helpers

`byteorder`'s `read_i16/read_i32/read_u32/write_*` with `LE`: two's
complement little-endian.  Signed values are `Int`s; the encoders take the
value modulo `2 ^ w` exactly as the bit cast does. -/

def encU16 (n : Nat) : List Nat := [n % 256, n / 256 % 256]

def decU16 (b : List Nat) : Nat := b.getD 0 0 + 256 * b.getD 1 0

def encI16 (n : Int) : List Nat := encU16 (n % 65536).toNat

def decI16 (b : List Nat) : Int :=
  let u := decU16 b
  if u < 32768 then (u : Int) else (u : Int) - 65536

def encU32 (n : Nat) : List Nat :=
  [n % 256, n / 256 % 256, n / 65536 % 256, n / 16777216 % 256]

def decU32 (b : List Nat) : Nat :=
  b.getD 0 0 + 256 * b.getD 1 0 + 65536 * b.getD 2 0 + 16777216 * b.getD 3 0

def encI32 (n : Int) : List Nat := encU32 (n % 4294967296).toNat

def decI32 (b : List Nat) : Int :=
  let u := decU32 b
  if u < 2147483648 then (u : Int) else (u : Int) - 4294967296

theorem encU16_length (n : Nat) : (encU16 n).length = 2 := rfl

theorem encI16_length (n : Int) : (encI16 n).length = 2 := rfl

theorem encU32_length (n : Nat) : (encU32 n).length = 4 := rfl

theorem encI32_length (n : Int) : (encI32 n).length = 4 := rfl

theorem decU16_encU16 (n : Nat) (h : n < 65536) : decU16 (encU16 n) = n := by
  simp only [encU16, decU16, List.getD]
  simp only [List.get?_cons_zero, List.get?_cons_succ, Option.getD_some]
  omega

theorem decI16_encI16 (n : Int) (h1 : -32768 ≤ n) (h2 : n < 32768) :
    decI16 (encI16 n) = n := by
  have hrange : (0 : Int) ≤ n % 65536 ∧ n % 65536 < 65536 := by
    constructor
    · exact Int.emod_nonneg n (by norm_num)
    · exact Int.emod_lt_of_pos n (by norm_num)
  have := decU16_encU16 (n % 65536).toNat (by omega)
  simp only [encI16, decI16, this]
  split <;> omega

theorem decU32_encU32 (n : Nat) (h : n < 4294967296) : decU32 (encU32 n) = n := by
  simp only [encU32, decU32, List.getD]
  simp only [List.get?_cons_zero, List.get?_cons_succ, Option.getD_some]
  omega

theorem decI32_encI32 (n : Int) (h1 : -2147483648 ≤ n) (h2 : n < 2147483648) :
    decI32 (encI32 n) = n := by
  have hrange : (0 : Int) ≤ n % 4294967296 ∧ n % 4294967296 < 4294967296 := by
    constructor
    · exact Int.emod_nonneg n (by norm_num)
    · exact Int.emod_lt_of_pos n (by norm_num)
  have := decU32_encU32 (n % 4294967296).toNat (by omega)
  simp only [encI32, decI32, this]
  split <;> omega

/-- `decU16` and `decI16` only look at the first two bytes. -/
theorem decI16_append (x y : Nat) (rest : List Nat) :
    decI16 ([x, y] ++ rest) = decI16 [x, y] := rfl

theorem decI32_append (x y z w : Nat) (rest : List Nat) :
    decI32 ([x, y, z, w] ++ rest) = decI32 [x, y, z, w] := rfl

/-! ## UTF-8 validity

`buf_to_str` calls `std::str::from_utf8`, which validates the whole buffer
as UTF-8 before any NUL truncation happens.  We model the validation with
the standard UTF-8 acceptance automaton (rejecting overlong forms,
surrogates and code points above U+10FFFF, exactly as Rust does). -/

inductive Utf8State
  | accept
  | expect (count : Nat) (lo hi : Nat)
  | reject
deriving DecidableEq

def utf8Step (s : Utf8State) (b : Nat) : Utf8State :=
  match s with
  | .reject => .reject
  | .expect c lo hi =>
      if lo ≤ b ∧ b ≤ hi then
        if c ≤ 1 then .accept else .expect (c - 1) 128 191
      else .reject
  | .accept =>
      if b ≤ 127 then .accept
      else if 194 ≤ b ∧ b ≤ 223 then .expect 1 128 191
      else if b = 224 then .expect 2 160 191
      else if 225 ≤ b ∧ b ≤ 236 then .expect 2 128 191
      else if b = 237 then .expect 2 128 159
      else if 238 ≤ b ∧ b ≤ 239 then .expect 2 128 191
      else if b = 240 then .expect 3 144 191
      else if 241 ≤ b ∧ b ≤ 243 then .expect 3 128 191
      else if b = 244 then .expect 3 128 143
      else .reject

def validUtf8 (bs : List Nat) : Bool :=
  decide (bs.foldl utf8Step .accept = .accept)

theorem utf8Step_zero : utf8Step .accept 0 = .accept := rfl

theorem foldl_utf8Step_replicate_zero (k : Nat) :
    (List.replicate k 0).foldl utf8Step .accept = .accept := by
  induction k with
  | zero => rfl
  | succ n ih => simpa [List.replicate_succ, List.foldl_cons, utf8Step_zero] using ih

/-- Appending NUL padding keeps a buffer valid UTF-8. -/
theorem validUtf8_append_replicate_zero (s : List Nat) (k : Nat)
    (h : validUtf8 s = true) :
    validUtf8 (s ++ List.replicate k 0) = true := by
  simp only [validUtf8, decide_eq_true_eq, List.foldl_append] at *
  rw [h]
  exact foldl_utf8Step_replicate_zero k

/-! ## The stream cipher (`DecryptRead` / `EncryptWrite`)

The byte-feedback XOR transform.  `start` is the feedback register
(initialized to `0x58` by `parse`/`write`), `pos` the 0-based stream
position.  `DecryptRead::read` computes `plain = cipher ^ start ^ key[pos]`
and feeds the *ciphertext* byte back; `EncryptWrite::write` computes
`cipher = plain ^ key[pos] ^ start` and feeds the ciphertext back. -/

/-- `b"Falcon is your Master"` (21 bytes). -/
def MASTER_KEY : List Nat :=
  [70, 97, 108, 99, 111, 110, 32, 105, 115, 32, 121,
   111, 117, 114, 32, 77, 97, 115, 116, 101, 114]

def keyAt (i : Nat) : Nat := MASTER_KEY.getD (i % MASTER_KEY.length) 0

def decryptFrom (start : Nat) (pos : Nat) : List Nat → List Nat
  | [] => []
  | c :: rest => (c ^^^ start ^^^ keyAt pos) :: decryptFrom c (pos + 1) rest

def encryptFrom (start : Nat) (pos : Nat) : List Nat → List Nat
  | [] => []
  | p :: rest =>
      let c := p ^^^ keyAt pos ^^^ start
      c :: encryptFrom c (pos + 1) rest

theorem decryptFrom_encryptFrom (bs : List Nat) :
    ∀ (start pos : Nat), decryptFrom start pos (encryptFrom start pos bs) = bs := by
  induction bs with
  | nil => intro start pos; rfl
  | cons p rest ih =>
      intro start pos
      simp only [encryptFrom, decryptFrom, ih]
      congr 1
      rw [Nat.xor_cancel_right, Nat.xor_cancel_right]

theorem encryptFrom_decryptFrom (bs : List Nat) :
    ∀ (start pos : Nat), encryptFrom start pos (decryptFrom start pos bs) = bs := by
  induction bs with
  | nil => intro start pos; rfl
  | cons c rest ih =>
      intro start pos
      simp only [decryptFrom, encryptFrom]
      have hc : c ^^^ start ^^^ keyAt pos ^^^ keyAt pos ^^^ start = c := by
        rw [Nat.xor_cancel_right, Nat.xor_cancel_right]
      rw [hc]
      exact congrArg (c :: ·) (ih c (pos + 1))

theorem encryptFrom_length (bs : List Nat) :
    ∀ (start pos : Nat), (encryptFrom start pos bs).length = bs.length := by
  induction bs with
  | nil => intro start pos; rfl
  | cons p rest ih => intro start pos; simp [encryptFrom, ih]

theorem decryptFrom_length (bs : List Nat) :
    ∀ (start pos : Nat), (decryptFrom start pos bs).length = bs.length := by
  induction bs with
  | nil => intro start pos; rfl
  | cons p rest ih => intro start pos; simp [decryptFrom, ih]

/-! ## The data model (`Rank`, `Medals`, the stats records, `Logbook`) -/

/-- `#[repr(i32)]` enum with ordinals 0..6 (the `Leiutenant` typo is the
source's). -/
inductive Rank
  | SecondLt
  | Leiutenant
  | Captain
  | Major
  | LtColonel
  | Colonel
  | BrigadierGeneral
deriving DecidableEq

/-- `num_enum::IntoPrimitive`: the discriminant of each variant. -/
def Rank.toInt : Rank → Int
  | .SecondLt => 0
  | .Leiutenant => 1
  | .Captain => 2
  | .Major => 3
  | .LtColonel => 4
  | .Colonel => 5
  | .BrigadierGeneral => 6

/-- `num_enum::TryFromPrimitive`: `Rank::try_from(i32)`, `none` models the
`TryFromPrimitiveError` carrying the offending number. -/
def Rank.tryFrom (n : Int) : Option Rank :=
  if n = 0 then some .SecondLt
  else if n = 1 then some .Leiutenant
  else if n = 2 then some .Captain
  else if n = 3 then some .Major
  else if n = 4 then some .LtColonel
  else if n = 5 then some .Colonel
  else if n = 6 then some .BrigadierGeneral
  else none

/-- Declaration order is both the `IntoEnumIterator` iteration order and
the derived `Ord` order used by the `BTreeSet`. -/
inductive Medals
  | AirForceCross
  | SilverStar
  | DistinguishedFlyingCross
  | AirMedal
  | KoreaCampaign
  | Longevity
deriving DecidableEq

/-- `Medals::into_enum_iter()` in declaration order. -/
def Medals.all : List Medals :=
  [.AirForceCross, .SilverStar, .DistinguishedFlyingCross,
   .AirMedal, .KoreaCampaign, .Longevity]

/-- 8 contiguous `i16` counters (`#[byte_struct_le]`). -/
structure DogfightStats where
  matches_won : Int
  matches_lost : Int
  matches_won_versus_humans : Int
  matches_lost_versus_humans : Int
  kills : Int
  killed : Int
  human_kills : Int
  killed_versus_humans : Int
deriving DecidableEq

/-- 17 contiguous fields: 15 `i16` and 2 `i32` (`total_score`,
`total_mission_score`), little-endian, in declaration order. -/
structure CampaignStats where
  games_won : Int
  game_lost : Int
  games_tied : Int
  missions : Int
  total_score : Int
  total_mission_score : Int
  consecutive_missions : Int
  kills : Int
  killed : Int
  human_kills : Int
  killed_versus_humans : Int
  self_kills : Int
  air_to_ground_kills : Int
  static_kills : Int
  naval_kills : Int
  friendly_kills : Int
  missions_since_last_friendly_kill : Int
deriving DecidableEq

/-- The in-memory record.  Text fields (`String`/`Utf8PathBuf`) are modeled
as their UTF-8 byte lists; the `BTreeSet<Medals>` as its sorted element
list; the two `f32` fields by their little-endian 32-bit pattern. -/
structure Logbook where
  name : List Nat
  callsign : List Nat
  password : List Nat
  commissioned : List Nat
  options_file : List Nat
  flight_hours : Nat
  ace_factor : Nat
  rank : Rank
  dogfight_stats : DogfightStats
  campaign_stats : CampaignStats
  medals : List Medals
  picture_file : List Nat
  patch_file : List Nat
  personal_text : List Nat
  squadron : List Nat
  voice : Int
deriving DecidableEq

def FILENAME_LEN : Nat := 32
def PASSWORD_LEN : Nat := 10
def CALLSIGN_LEN : Nat := 12
def PERSONAL_TEXT_LEN : Nat := 120
def COMM_LEN : Nat := 12
def NAME_LEN : Nat := 20

/-- `DogfightStats::BYTE_LEN` (8 × 2). -/
def DogfightStats.BYTE_LEN : Nat := 16

/-- `CampaignStats::BYTE_LEN` (15 × 2 + 2 × 4). -/
def CampaignStats.BYTE_LEN : Nat := 38

/-- `byte_struct`'s generated `write_bytes`: each field little-endian in
declaration order. -/
def DogfightStats.write_bytes (s : DogfightStats) : List Nat :=
  encI16 s.matches_won ++ encI16 s.matches_lost ++
  encI16 s.matches_won_versus_humans ++ encI16 s.matches_lost_versus_humans ++
  encI16 s.kills ++ encI16 s.killed ++
  encI16 s.human_kills ++ encI16 s.killed_versus_humans

/-- `byte_struct`'s generated `read_bytes` (each `decI16` reads the two
bytes at the field's offset). -/
def DogfightStats.read_bytes (b : List Nat) : DogfightStats where
  matches_won := decI16 b
  matches_lost := decI16 (b.drop 2)
  matches_won_versus_humans := decI16 (b.drop 4)
  matches_lost_versus_humans := decI16 (b.drop 6)
  kills := decI16 (b.drop 8)
  killed := decI16 (b.drop 10)
  human_kills := decI16 (b.drop 12)
  killed_versus_humans := decI16 (b.drop 14)

def CampaignStats.write_bytes (s : CampaignStats) : List Nat :=
  encI16 s.games_won ++ encI16 s.game_lost ++ encI16 s.games_tied ++
  encI16 s.missions ++ encI32 s.total_score ++ encI32 s.total_mission_score ++
  encI16 s.consecutive_missions ++ encI16 s.kills ++ encI16 s.killed ++
  encI16 s.human_kills ++ encI16 s.killed_versus_humans ++ encI16 s.self_kills ++
  encI16 s.air_to_ground_kills ++ encI16 s.static_kills ++ encI16 s.naval_kills ++
  encI16 s.friendly_kills ++ encI16 s.missions_since_last_friendly_kill

def CampaignStats.read_bytes (b : List Nat) : CampaignStats where
  games_won := decI16 b
  game_lost := decI16 (b.drop 2)
  games_tied := decI16 (b.drop 4)
  missions := decI16 (b.drop 6)
  total_score := decI32 (b.drop 8)
  total_mission_score := decI32 (b.drop 12)
  consecutive_missions := decI16 (b.drop 16)
  kills := decI16 (b.drop 18)
  killed := decI16 (b.drop 20)
  human_kills := decI16 (b.drop 22)
  killed_versus_humans := decI16 (b.drop 24)
  self_kills := decI16 (b.drop 26)
  air_to_ground_kills := decI16 (b.drop 28)
  static_kills := decI16 (b.drop 30)
  naval_kills := decI16 (b.drop 32)
  friendly_kills := decI16 (b.drop 34)
  missions_since_last_friendly_kill := decI16 (b.drop 36)

/-! ## Field codec helpers -/

/-- `buf_to_str`: validate the whole buffer as UTF-8
(`std::str::from_utf8(buf)?`), then keep the bytes before the first NUL
(`.split(given zero).next().unwrap()`). -/
def buf_to_str (b : List Nat) : Except String (List Nat) :=
  if validUtf8 b then .ok (b.takeWhile (fun x => x != 0))
  else .error "invalid utf-8 sequence"

/-- `write_padded`: requires `s.len() < pad_to`, then emits the content
bytes followed by zero padding up to `pad_to` bytes.  `acc` is the byte
stream written so far (the writer's state). -/
def write_padded (acc : List Nat) (s : List Nat) (pad_to : Nat) :
    Except String (List Nat) :=
  if s.length < pad_to then
    .ok (acc ++ s ++ List.replicate (pad_to - s.length) 0)
  else
    let lim := pad_to - 1
    .error s!"{s} is longer than the allowed length ({lim})"

/-- `b"Who needs a password!"` (21 bytes). -/
def MASK1 : List Nat :=
  [87, 104, 111, 32, 110, 101, 101, 100, 115, 32, 97,
   32, 112, 97, 115, 115, 119, 111, 114, 100, 33]

/-- `b"Repend, Falcon is coming!"` (25 bytes). -/
def MASK2 : List Nat :=
  [82, 101, 112, 101, 110, 100, 44, 32, 70, 97, 108, 99, 111,
   110, 32, 105, 115, 32, 99, 111, 109, 105, 110, 103, 33]

def pwMaskAt (i : Nat) : Nat :=
  MASK1.getD (i % MASK1.length) 0 ^^^ MASK2.getD (i % MASK2.length) 0

/-- The masking loop of `xor_password`: XOR both masks into the first
`PASSWORD_LEN` bytes (`iter_mut().take(PASSWORD_LEN)`), leave the rest. -/
def xorPwFrom (i : Nat) : List Nat → List Nat
  | [] => []
  | b :: rest =>
      (if i < PASSWORD_LEN then b ^^^ pwMaskAt i else b) :: xorPwFrom (i + 1) rest

/-- `xor_password`: asserts the buffer is `PASSWORD_LEN + 1` bytes with a
zero terminator byte (a panic on violation, modeled as an error), then
applies the double mask to the content bytes.  Self-inverse. -/
def xor_password (pw : List Nat) : Except String (List Nat) :=
  if pw.length = PASSWORD_LEN + 1 then
    if pw.getD PASSWORD_LEN 0 = 0 then .ok (xorPwFrom 0 pw)
    else .error "assertion failed: password terminator is not zero"
  else .error "assertion failed: password buffer length"

/-- `write_password`: requires `pw.len() <= PASSWORD_LEN`, pads the content
to `PASSWORD_LEN + 1` bytes with zeros, masks, and emits the buffer. -/
def write_password (acc : List Nat) (pw : List Nat) : Except String (List Nat) :=
  if pw.length ≤ PASSWORD_LEN then
    match xor_password (pw ++ List.replicate (PASSWORD_LEN + 1 - pw.length) 0) with
    | .ok masked => .ok (acc ++ masked)
    | .error e => .error e
  else .error s!"{pw} is longer than the allowed length ({PASSWORD_LEN})"

/-! ## The layout walker: `Logbook::parse` and `Logbook::write`

The reader state is the pair (remaining plain bytes, position); `read_exact`
consumes `n` bytes or fails like an `UnexpectedEof`.  `assert_eq!(position %
4, 0)` checkpoints are modeled as checks that can fail (they never do). -/

def readExact (n : Nat) (s : List Nat × Nat) :
    Except String (List Nat × List Nat × Nat) :=
  if n ≤ s.1.length then .ok (s.1.take n, s.1.drop n, s.2 + n)
  else .error "failed to fill whole buffer"

def checkpoint (s : List Nat × Nat) : Except String Unit :=
  if s.2 % 4 = 0 then .ok () else .error "assertion failed: position % 4 == 0"

/-- The medal loop of `parse`: one byte per medal in `into_enum_iter`
order; a nonzero byte inserts the medal.  Building the list in iteration
order yields exactly the `BTreeSet`'s sorted element list. -/
def readMedals : List Medals → List Nat × Nat →
    Except String (List Medals × List Nat × Nat)
  | [], s => .ok ([], s)
  | m :: ms, s => do
      let (b, s) ← readExact 1 s
      let (rest, s) ← readMedals ms s
      if b.getD 0 0 > 0 then .ok (m :: rest, s) else .ok (rest, s)

/-- The medal loop of `write`: `medals.contains(&m) as u8` per medal in
iteration order. -/
def writeMedals (earned : List Medals) : List Medals → List Nat
  | [] => []
  | m :: ms => (if earned.contains m then 1 else 0) :: writeMedals earned ms

/-- `Logbook::parse` up to (and including) the voice check, on the
de-obfuscated byte stream; returns the record and the reader state. -/
def parseBody (input : List Nat) : Except String (Logbook × List Nat × Nat) := do
  let s : List Nat × Nat := (input, 0)
  let (name_buf, s) ← readExact (NAME_LEN + 1) s
  let name ← buf_to_str name_buf
  let (callsign_buf, s) ← readExact (CALLSIGN_LEN + 1) s
  let callsign ← buf_to_str callsign_buf
  let (pw_raw, s) ← readExact (PASSWORD_LEN + 1) s
  let pw_buf ← xor_password pw_raw
  let password ← buf_to_str pw_buf
  let (commission_buf, s) ← readExact (COMM_LEN + 1) s
  let commissioned ← buf_to_str commission_buf
  let (options_buf, s) ← readExact (CALLSIGN_LEN + 1) s
  let options_file ← buf_to_str options_buf
  let (_, s) ← readExact 1 s
  let (fh_buf, s) ← readExact 4 s
  let flight_hours := decU32 fh_buf
  let (af_buf, s) ← readExact 4 s
  let ace_factor := decU32 af_buf
  let (rank_buf, s) ← readExact 4 s
  let rank_int := decI32 rank_buf
  let rank ← match Rank.tryFrom rank_int with
    | some r => .ok r
    | none => .error s!"{rank_int} isn't a valid rank index"
  let _ ← checkpoint s
  let (dogfight_buf, s) ← readExact DogfightStats.BYTE_LEN s
  let dogfight_stats := DogfightStats.read_bytes dogfight_buf
  let _ ← checkpoint s
  let (campaign_buf, s) ← readExact CampaignStats.BYTE_LEN s
  let campaign_stats := CampaignStats.read_bytes campaign_buf
  let (_, s) ← readExact 2 s
  let _ ← checkpoint s
  let (medals, s) ← readMedals Medals.all s
  let (_, s) ← readExact 2 s
  let _ ← checkpoint s
  let (_, s) ← readExact 4 s
  let (picture_buf, s) ← readExact (FILENAME_LEN + 1) s
  let picture_file ← buf_to_str picture_buf
  let (_, s) ← readExact 3 s
  let _ ← checkpoint s
  let (_, s) ← readExact 4 s
  let (patch_buf, s) ← readExact (FILENAME_LEN + 1) s
  let patch_file ← buf_to_str patch_buf
  let (personal_buf, s) ← readExact (PERSONAL_TEXT_LEN + 1) s
  let personal_text ← buf_to_str personal_buf
  let (squadron_buf, s) ← readExact NAME_LEN s
  let squadron ← buf_to_str squadron_buf
  let (voice_buf, s) ← readExact 2 s
  let voice := decI16 voice_buf
  if voice < 12 then
    .ok ({ name, callsign, password, commissioned, options_file,
           flight_hours, ace_factor, rank, dogfight_stats, campaign_stats,
           medals, picture_file, patch_file, personal_text, squadron,
           voice }, s)
  else .error s!"voice index {voice} > 11"

/-- The tail of `Logbook::parse`: the 4-byte trailing sentinel must decode
to zero. -/
def parseAll (input : List Nat) : Except String (Logbook × List Nat × Nat) := do
  let (book, rest, pos) ← parseBody input
  let (ck_buf, s) ← readExact 4 (rest, pos)
  let checksum := decU32 ck_buf
  if checksum = 0 then .ok (book, s)
  else .error "Decryption failed - bad checksum"

/-- `Logbook::parse`: de-obfuscate the stream (feedback register starts at
`0x58`) and walk the layout. -/
def Logbook.parse (input : List Nat) : Except String Logbook :=
  (parseAll (decryptFrom 88 0 input)).map (fun x => x.1)

/-- The plain (pre-obfuscation) byte stream produced by `Logbook::write`,
with the position checkpoints; `acc` is the bytes written so far. -/
def writePlain (book : Logbook) : Except String (List Nat) := do
  let acc : List Nat := []
  let acc ← write_padded acc book.name (NAME_LEN + 1)
  let acc ← write_padded acc book.callsign (CALLSIGN_LEN + 1)
  let acc ← write_password acc book.password
  let acc ← write_padded acc book.commissioned (COMM_LEN + 1)
  let acc ← write_padded acc book.options_file (CALLSIGN_LEN + 1)
  let acc := acc ++ [0]
  let acc := acc ++ encU32 book.flight_hours
  let acc := acc ++ encU32 book.ace_factor
  let acc := acc ++ encI32 book.rank.toInt
  let _ ← checkpoint ([], acc.length)
  let acc := acc ++ DogfightStats.write_bytes book.dogfight_stats
  let _ ← checkpoint ([], acc.length)
  let acc := acc ++ CampaignStats.write_bytes book.campaign_stats
  let acc := acc ++ [0, 0]
  let _ ← checkpoint ([], acc.length)
  let acc := acc ++ writeMedals book.medals Medals.all
  let acc := acc ++ [0, 0]
  let _ ← checkpoint ([], acc.length)
  let acc := acc ++ [0, 0, 0, 0]
  let acc ← write_padded acc book.picture_file (FILENAME_LEN + 1)
  let acc := acc ++ [0, 0, 0]
  let _ ← checkpoint ([], acc.length)
  let acc := acc ++ [0, 0, 0, 0]
  let acc ← write_padded acc book.patch_file (FILENAME_LEN + 1)
  let acc ← write_padded acc book.personal_text (PERSONAL_TEXT_LEN + 1)
  let acc ← write_padded acc book.squadron NAME_LEN
  let voice := book.voice
  if voice < 12 then
    .ok (acc ++ encI16 voice ++ encU32 0)
  else .error s!"voice index {voice} > 11"

/-- `Logbook::write`: the plain stream pushed through `EncryptWrite`
(feedback register starts at `0x58`). -/
def Logbook.write (book : Logbook) : Except String (List Nat) :=
  (writePlain book).map (encryptFrom 88 0)

/-! ## Reduction lemmas for the reader and writer -/

theorem ok_bind {α β : Type} (a : α) (f : α → Except String β) :
    (Except.ok a >>= f) = f a := rfl

theorem error_bind {α β : Type} (e : String) (f : α → Except String β) :
    ((Except.error e : Except String α) >>= f) = Except.error e := rfl

/-- The canonical on-disk image of a text field: content plus NUL padding
to the full width. -/
def padded (s : List Nat) (w : Nat) : List Nat :=
  s ++ List.replicate (w - s.length) 0

theorem padded_length {s : List Nat} {w : Nat} (h : s.length ≤ w) :
    (padded s w).length = w := by
  simp only [padded, List.length_append, List.length_replicate]
  omega

theorem readExact_append {n : Nat} {a : List Nat} (b : List Nat) (p : Nat)
    (h : a.length = n) : readExact n (a ++ b, p) = .ok (a, b, p + n) := by
  simp only [readExact, List.length_append]
  rw [if_pos (by omega), List.take_left' h, List.drop_left' h]

theorem takeWhile_append_zeros {s : List Nat} (hz : ∀ b ∈ s, b ≠ 0) (k : Nat) :
    (s ++ List.replicate k 0).takeWhile (fun x => x != 0) = s := by
  induction s with
  | nil =>
      cases k with
      | zero => rfl
      | succ m => simp [List.replicate_succ]
  | cons b rest ih =>
      have hb : b ≠ 0 := hz b (List.mem_cons_self b rest)
      simp only [List.cons_append, List.takeWhile_cons]
      simp [hb, ih fun x hx => hz x (List.mem_cons_of_mem b hx)]

theorem buf_to_str_padded {s : List Nat} (w : Nat) (hu : validUtf8 s = true)
    (hz : ∀ b ∈ s, b ≠ 0) : buf_to_str (padded s w) = .ok s := by
  simp only [buf_to_str, padded,
    validUtf8_append_replicate_zero s _ hu, if_true]
  rw [takeWhile_append_zeros hz]

/-! ### Password masking -/

theorem xorPwFrom_length (l : List Nat) : ∀ i, (xorPwFrom i l).length = l.length := by
  induction l with
  | nil => intro i; rfl
  | cons b rest ih => intro i; simp [xorPwFrom, ih]

theorem xorPwFrom_xorPwFrom (l : List Nat) : ∀ i, xorPwFrom i (xorPwFrom i l) = l := by
  induction l with
  | nil => intro i; rfl
  | cons b rest ih =>
      intro i
      simp only [xorPwFrom]
      by_cases hi : i < PASSWORD_LEN
      · simp [hi, Nat.xor_cancel_right, ih]
      · simp [hi, ih]

theorem xorPwFrom_getD (l : List Nat) :
    ∀ i j, PASSWORD_LEN ≤ i + j → (xorPwFrom i l).getD j 0 = l.getD j 0 := by
  induction l with
  | nil => intro i j _; rfl
  | cons b rest ih =>
      intro i j hij
      cases j with
      | zero =>
          have : ¬ i < PASSWORD_LEN := by omega
          simp [xorPwFrom, this]
      | succ j' =>
          simp only [xorPwFrom, List.getD_cons_succ]
          exact ih (i + 1) j' (by omega)

theorem getD_padded_of_le {s : List Nat} {w j : Nat} (hs : s.length ≤ j) :
    (padded s w).getD j 0 = 0 := by
  simp only [padded]
  rw [List.getD_append_right _ _ _ _ hs]
  rcases Nat.lt_or_ge (j - s.length) (List.replicate (w - s.length) (0 : Nat)).length with h | h
  · rw [List.getD_eq_getElem _ _ h]
    simp
  · exact List.getD_eq_default _ _ h

/-- Unmasking a masked, properly terminated 11-byte buffer succeeds and
restores the original buffer. -/
theorem xor_password_masked (buf : List Nat)
    (hlen : buf.length = PASSWORD_LEN + 1) (hz : buf.getD PASSWORD_LEN 0 = 0) :
    xor_password (xorPwFrom 0 buf) = .ok buf := by
  have h10 : (xorPwFrom 0 buf).getD PASSWORD_LEN 0 = buf.getD PASSWORD_LEN 0 :=
    xorPwFrom_getD buf 0 PASSWORD_LEN (by omega)
  unfold xor_password
  rw [if_pos (by rw [xorPwFrom_length]; exact hlen), if_pos (by rw [h10]; exact hz),
    xorPwFrom_xorPwFrom]

theorem write_password_ok (acc pw : List Nat) (h : pw.length ≤ PASSWORD_LEN) :
    write_password acc pw = .ok (acc ++ xorPwFrom 0 (padded pw (PASSWORD_LEN + 1))) := by
  have hlen : (padded pw (PASSWORD_LEN + 1)).length = PASSWORD_LEN + 1 :=
    padded_length (by omega)
  have hz : (padded pw (PASSWORD_LEN + 1)).getD PASSWORD_LEN 0 = 0 :=
    getD_padded_of_le h
  simp only [write_password, if_pos h]
  have hxp : xor_password (pw ++ List.replicate (PASSWORD_LEN + 1 - pw.length) 0) =
      .ok (xorPwFrom 0 (padded pw (PASSWORD_LEN + 1))) := by
    rw [show pw ++ List.replicate (PASSWORD_LEN + 1 - pw.length) 0 =
      padded pw (PASSWORD_LEN + 1) from rfl]
    unfold xor_password
    rw [if_pos hlen, if_pos hz]
  rw [hxp]

/-! ### Medals -/

theorem writeMedals_length (earned : List Medals) :
    ∀ ms, (writeMedals earned ms).length = ms.length := by
  intro ms
  induction ms with
  | nil => rfl
  | cons m ms ih => simp [writeMedals, ih]

theorem readExact_one (x : Nat) (t : List Nat) (p : Nat) :
    readExact 1 (x :: t, p) = .ok ([x], t, p + 1) := by
  simp [readExact]

theorem readMedals_writeMedals (earned : List Medals) :
    ∀ (ms : List Medals) (rest : List Nat) (p : Nat),
      readMedals ms (writeMedals earned ms ++ rest, p) =
        .ok (ms.filter (fun m => earned.contains m), rest, p + ms.length) := by
  intro ms
  induction ms with
  | nil => intro rest p; rfl
  | cons m ms ih =>
      intro rest p
      simp only [writeMedals, readMedals, List.cons_append, readExact_one, ok_bind,
        ih, List.filter_cons]
      by_cases hc : earned.contains m
      · simp only [hc, if_pos rfl, if_true]
        norm_num [List.length_cons]
        omega
      · simp only [hc]
        norm_num [List.length_cons]
        omega

/-- A `BTreeSet`'s sorted element list is recovered from the enumeration
order by filtering on membership. -/
theorem filter_contains_of_sublist {α : Type} [DecidableEq α] :
    ∀ (whole l : List α), l.Sublist whole → whole.Nodup →
      whole.filter (fun a => l.contains a) = l := by
  intro whole
  induction whole with
  | nil =>
      intro l hl _
      rw [List.sublist_nil.mp hl]
      rfl
  | cons x rest ih =>
      intro l hl hnd
      have hx_rest : x ∉ rest := (List.nodup_cons.mp hnd).1
      have hnd' : rest.Nodup := (List.nodup_cons.mp hnd).2
      cases hl with
      | cons _ h =>
          have hx : x ∉ l := fun hm => hx_rest (h.subset hm)
          have hcx : l.contains x = false := by
            simp only [List.contains_eq_any_beq]
            simp [List.any_eq_false]
            intro a ha hax
            exact hx (hax ▸ ha)
          simp only [List.filter_cons, hcx, Bool.false_eq_true, if_false]
          exact ih l h hnd'
      | cons₂ _ h =>
          rename_i l'
          have hcx : (x :: l').contains x = true := by simp [List.contains_cons]
          simp only [List.filter_cons, hcx, if_true]
          have hcongr : ∀ a ∈ rest, (x :: l').contains a = l'.contains a := by
            intro a ha
            have hax : ¬ (a == x) = true := by
              simp only [beq_iff_eq]
              intro he
              exact hx_rest (he ▸ ha)
            simp only [List.contains_cons]
            simp [hax]
          rw [List.filter_congr hcongr]
          rw [ih l' h hnd']

theorem medals_all_nodup : Medals.all.Nodup := by decide

/-! ### Rank -/

theorem Rank.tryFrom_toInt (r : Rank) : Rank.tryFrom r.toInt = some r := by
  cases r <;> rfl

theorem Rank.toInt_range (r : Rank) : 0 ≤ r.toInt ∧ r.toInt ≤ 6 := by
  cases r <;> simp [Rank.toInt]

/-! ### Statistics blocks -/

/-- The `i16` value range (the type invariant of an `i16` field). -/
def I16Ok (n : Int) : Prop := -32768 ≤ n ∧ n < 32768

/-- The `i32` value range. -/
def I32Ok (n : Int) : Prop := -2147483648 ≤ n ∧ n < 2147483648

instance (n : Int) : Decidable (I16Ok n) := by unfold I16Ok; infer_instance

instance (n : Int) : Decidable (I32Ok n) := by unfold I32Ok; infer_instance

def DogfightStats.Ok (s : DogfightStats) : Prop :=
  I16Ok s.matches_won ∧ I16Ok s.matches_lost ∧
  I16Ok s.matches_won_versus_humans ∧ I16Ok s.matches_lost_versus_humans ∧
  I16Ok s.kills ∧ I16Ok s.killed ∧ I16Ok s.human_kills ∧ I16Ok s.killed_versus_humans

def CampaignStats.Ok (s : CampaignStats) : Prop :=
  I16Ok s.games_won ∧ I16Ok s.game_lost ∧ I16Ok s.games_tied ∧ I16Ok s.missions ∧
  I32Ok s.total_score ∧ I32Ok s.total_mission_score ∧
  I16Ok s.consecutive_missions ∧ I16Ok s.kills ∧ I16Ok s.killed ∧
  I16Ok s.human_kills ∧ I16Ok s.killed_versus_humans ∧ I16Ok s.self_kills ∧
  I16Ok s.air_to_ground_kills ∧ I16Ok s.static_kills ∧ I16Ok s.naval_kills ∧
  I16Ok s.friendly_kills ∧ I16Ok s.missions_since_last_friendly_kill

instance (s : DogfightStats) : Decidable s.Ok := by unfold DogfightStats.Ok; infer_instance

instance (s : CampaignStats) : Decidable s.Ok := by unfold CampaignStats.Ok; infer_instance

theorem decI16_enc_prefix {v : Int} (r : List Nat) (h : I16Ok v) :
    decI16 (encI16 v ++ r) = v := by
  rw [show decI16 (encI16 v ++ r) = decI16 (encI16 v) from rfl]
  exact decI16_encI16 v h.1 h.2

theorem decI32_enc_prefix {v : Int} (r : List Nat) (h : I32Ok v) :
    decI32 (encI32 v ++ r) = v := by
  rw [show decI32 (encI32 v ++ r) = decI32 (encI32 v) from rfl]
  exact decI32_encI32 v h.1 h.2

theorem dogfight_write_bytes_length (s : DogfightStats) :
    s.write_bytes.length = DogfightStats.BYTE_LEN := by
  simp [DogfightStats.write_bytes, DogfightStats.BYTE_LEN, encI16_length]

theorem campaign_write_bytes_length (s : CampaignStats) :
    s.write_bytes.length = CampaignStats.BYTE_LEN := by
  simp [CampaignStats.write_bytes, CampaignStats.BYTE_LEN, encI16_length, encI32_length]

theorem decI16_two (u v : Nat) (r : List Nat) : decI16 (u :: v :: r) = decI16 [u, v] := rfl

theorem decI32_four (u v w x : Nat) (r : List Nat) :
    decI32 (u :: v :: w :: x :: r) = decI32 [u, v, w, x] := rfl

theorem dogfight_read_write_bytes (s : DogfightStats) (h : s.Ok) :
    DogfightStats.read_bytes s.write_bytes = s := by
  obtain ⟨a1, a2, a3, a4, a5, a6, a7, a8⟩ := s
  simp only [DogfightStats.Ok] at h
  obtain ⟨h1, h2, h3, h4, h5, h6, h7, h8⟩ := h
  obtain ⟨u1, v1, e1⟩ : ∃ u v, encI16 a1 = [u, v] := ⟨_, _, rfl⟩
  obtain ⟨u2, v2, e2⟩ : ∃ u v, encI16 a2 = [u, v] := ⟨_, _, rfl⟩
  obtain ⟨u3, v3, e3⟩ : ∃ u v, encI16 a3 = [u, v] := ⟨_, _, rfl⟩
  obtain ⟨u4, v4, e4⟩ : ∃ u v, encI16 a4 = [u, v] := ⟨_, _, rfl⟩
  obtain ⟨u5, v5, e5⟩ : ∃ u v, encI16 a5 = [u, v] := ⟨_, _, rfl⟩
  obtain ⟨u6, v6, e6⟩ : ∃ u v, encI16 a6 = [u, v] := ⟨_, _, rfl⟩
  obtain ⟨u7, v7, e7⟩ : ∃ u v, encI16 a7 = [u, v] := ⟨_, _, rfl⟩
  obtain ⟨u8, v8, e8⟩ : ∃ u v, encI16 a8 = [u, v] := ⟨_, _, rfl⟩
  simp only [DogfightStats.write_bytes, DogfightStats.read_bytes]
  rw [e1, e2, e3, e4, e5, e6, e7, e8]
  simp only [List.cons_append, List.nil_append, List.drop_succ_cons, List.drop_zero,
    DogfightStats.mk.injEq]
  refine ⟨?_, ?_, ?_, ?_, ?_, ?_, ?_, ?_⟩
  · rw [decI16_two, ← e1]; exact decI16_encI16 _ h1.1 h1.2
  · rw [decI16_two, ← e2]; exact decI16_encI16 _ h2.1 h2.2
  · rw [decI16_two, ← e3]; exact decI16_encI16 _ h3.1 h3.2
  · rw [decI16_two, ← e4]; exact decI16_encI16 _ h4.1 h4.2
  · rw [decI16_two, ← e5]; exact decI16_encI16 _ h5.1 h5.2
  · rw [decI16_two, ← e6]; exact decI16_encI16 _ h6.1 h6.2
  · rw [decI16_two, ← e7]; exact decI16_encI16 _ h7.1 h7.2
  · rw [decI16_two, ← e8]; exact decI16_encI16 _ h8.1 h8.2

theorem campaign_read_write_bytes (s : CampaignStats) (h : s.Ok) :
    CampaignStats.read_bytes s.write_bytes = s := by
  obtain ⟨a1, a2, a3, a4, a5, a6, a7, a8, a9, a10, a11, a12, a13, a14, a15, a16, a17⟩ := s
  simp only [CampaignStats.Ok] at h
  obtain ⟨h1, h2, h3, h4, h5, h6, h7, h8, h9, h10, h11, h12, h13, h14, h15, h16, h17⟩ := h
  obtain ⟨u1, v1, e1⟩ : ∃ u v, encI16 a1 = [u, v] := ⟨_, _, rfl⟩
  obtain ⟨u2, v2, e2⟩ : ∃ u v, encI16 a2 = [u, v] := ⟨_, _, rfl⟩
  obtain ⟨u3, v3, e3⟩ : ∃ u v, encI16 a3 = [u, v] := ⟨_, _, rfl⟩
  obtain ⟨u4, v4, e4⟩ : ∃ u v, encI16 a4 = [u, v] := ⟨_, _, rfl⟩
  obtain ⟨p5, q5, r5, t5, e5⟩ : ∃ p q r t, encI32 a5 = [p, q, r, t] := ⟨_, _, _, _, rfl⟩
  obtain ⟨p6, q6, r6, t6, e6⟩ : ∃ p q r t, encI32 a6 = [p, q, r, t] := ⟨_, _, _, _, rfl⟩
  obtain ⟨u7, v7, e7⟩ : ∃ u v, encI16 a7 = [u, v] := ⟨_, _, rfl⟩
  obtain ⟨u8, v8, e8⟩ : ∃ u v, encI16 a8 = [u, v] := ⟨_, _, rfl⟩
  obtain ⟨u9, v9, e9⟩ : ∃ u v, encI16 a9 = [u, v] := ⟨_, _, rfl⟩
  obtain ⟨u10, v10, e10⟩ : ∃ u v, encI16 a10 = [u, v] := ⟨_, _, rfl⟩
  obtain ⟨u11, v11, e11⟩ : ∃ u v, encI16 a11 = [u, v] := ⟨_, _, rfl⟩
  obtain ⟨u12, v12, e12⟩ : ∃ u v, encI16 a12 = [u, v] := ⟨_, _, rfl⟩
  obtain ⟨u13, v13, e13⟩ : ∃ u v, encI16 a13 = [u, v] := ⟨_, _, rfl⟩
  obtain ⟨u14, v14, e14⟩ : ∃ u v, encI16 a14 = [u, v] := ⟨_, _, rfl⟩
  obtain ⟨u15, v15, e15⟩ : ∃ u v, encI16 a15 = [u, v] := ⟨_, _, rfl⟩
  obtain ⟨u16, v16, e16⟩ : ∃ u v, encI16 a16 = [u, v] := ⟨_, _, rfl⟩
  obtain ⟨u17, v17, e17⟩ : ∃ u v, encI16 a17 = [u, v] := ⟨_, _, rfl⟩
  simp only [CampaignStats.write_bytes, CampaignStats.read_bytes]
  rw [e1, e2, e3, e4, e5, e6, e7, e8, e9, e10, e11, e12, e13, e14, e15, e16, e17]
  simp only [List.cons_append, List.nil_append, List.drop_succ_cons, List.drop_zero,
    CampaignStats.mk.injEq]
  refine ⟨?_, ?_, ?_, ?_, ?_, ?_, ?_, ?_, ?_, ?_, ?_, ?_, ?_, ?_, ?_, ?_, ?_⟩
  · rw [decI16_two, ← e1]; exact decI16_encI16 _ h1.1 h1.2
  · rw [decI16_two, ← e2]; exact decI16_encI16 _ h2.1 h2.2
  · rw [decI16_two, ← e3]; exact decI16_encI16 _ h3.1 h3.2
  · rw [decI16_two, ← e4]; exact decI16_encI16 _ h4.1 h4.2
  · rw [decI32_four, ← e5]; exact decI32_encI32 _ h5.1 h5.2
  · rw [decI32_four, ← e6]; exact decI32_encI32 _ h6.1 h6.2
  · rw [decI16_two, ← e7]; exact decI16_encI16 _ h7.1 h7.2
  · rw [decI16_two, ← e8]; exact decI16_encI16 _ h8.1 h8.2
  · rw [decI16_two, ← e9]; exact decI16_encI16 _ h9.1 h9.2
  · rw [decI16_two, ← e10]; exact decI16_encI16 _ h10.1 h10.2
  · rw [decI16_two, ← e11]; exact decI16_encI16 _ h11.1 h11.2
  · rw [decI16_two, ← e12]; exact decI16_encI16 _ h12.1 h12.2
  · rw [decI16_two, ← e13]; exact decI16_encI16 _ h13.1 h13.2
  · rw [decI16_two, ← e14]; exact decI16_encI16 _ h14.1 h14.2
  · rw [decI16_two, ← e15]; exact decI16_encI16 _ h15.1 h15.2
  · rw [decI16_two, ← e16]; exact decI16_encI16 _ h16.1 h16.2
  · rw [decI16_two, ← e17]; exact decI16_encI16 _ h17.1 h17.2

/-! ## Validity of an in-memory record

`TextOk s w`: the byte list is a valid UTF-8 encoding of a Rust `String`
of length at most `w` with no interior NUL — the image of the strings the
encoder can write and the decoder can produce canonically. -/

def TextOk (s : List Nat) (maxLen : Nat) : Prop :=
  s.length ≤ maxLen ∧ validUtf8 s = true ∧ ∀ x ∈ s, x ≠ 0

instance (s : List Nat) (w : Nat) : Decidable (TextOk s w) := by
  unfold TextOk; infer_instance

/-- Everything `Logbook::write` requires of a record except the voice
check, plus the type invariants of the Rust fields (string contents,
`i16`/`i32`/`f32` ranges, `BTreeSet` canonicity). -/
def Logbook.ValidCore (b : Logbook) : Prop :=
  TextOk b.name NAME_LEN ∧ TextOk b.callsign CALLSIGN_LEN ∧
  TextOk b.password PASSWORD_LEN ∧ TextOk b.commissioned COMM_LEN ∧
  TextOk b.options_file CALLSIGN_LEN ∧
  b.flight_hours < 4294967296 ∧ b.ace_factor < 4294967296 ∧
  b.dogfight_stats.Ok ∧ b.campaign_stats.Ok ∧ b.medals.Sublist Medals.all ∧
  TextOk b.picture_file FILENAME_LEN ∧ TextOk b.patch_file FILENAME_LEN ∧
  TextOk b.personal_text PERSONAL_TEXT_LEN ∧ TextOk b.squadron (NAME_LEN - 1) ∧
  I16Ok b.voice

/-- A fully valid record: `ValidCore` plus a voice index in the claimed
`0..11` range. -/
def Logbook.Valid (b : Logbook) : Prop :=
  b.ValidCore ∧ 0 ≤ b.voice ∧ b.voice < 12

instance (b : Logbook) : Decidable b.ValidCore := by
  unfold Logbook.ValidCore; infer_instance

instance (b : Logbook) : Decidable b.Valid := by
  unfold Logbook.Valid; infer_instance

/-- The canonical plain (pre-obfuscation) stream of a record, with an
arbitrary trailing sentinel value `ck`.  `Logbook::write` produces exactly
this stream with `ck = 0` (then obfuscates it). -/
def plainStreamV (b : Logbook) (ck : Nat) : List Nat :=
  padded b.name 21 ++ padded b.callsign 13 ++ xorPwFrom 0 (padded b.password 11) ++
  padded b.commissioned 13 ++ padded b.options_file 13 ++ [0] ++
  encU32 b.flight_hours ++ encU32 b.ace_factor ++ encI32 b.rank.toInt ++
  b.dogfight_stats.write_bytes ++ b.campaign_stats.write_bytes ++ [0, 0] ++
  writeMedals b.medals Medals.all ++ [0, 0] ++ [0, 0, 0, 0] ++
  padded b.picture_file 33 ++ [0, 0, 0] ++ [0, 0, 0, 0] ++ padded b.patch_file 33 ++
  padded b.personal_text 121 ++ padded b.squadron 20 ++ encI16 b.voice ++ encU32 ck

theorem write_padded_ok (acc s : List Nat) (w : Nat) (h : s.length < w) :
    write_padded acc s w = .ok (acc ++ padded s w) := by
  unfold write_padded padded
  rw [if_pos h, List.append_assoc]

theorem readExact_exact {n : Nat} {a : List Nat} (p : Nat) (h : a.length = n) :
    readExact n (a, p) = .ok (a, [], p + n) := by
  simp only [readExact]
  rw [if_pos (by omega)]
  rw [← h, List.take_length, List.drop_length]

/-- `Logbook::write` (before obfuscation) on a record satisfying all
constraints except possibly the voice range: it emits exactly the
canonical stream, or fails the voice check. -/
theorem writePlain_eq (b : Logbook) (hc : b.ValidCore) :
    writePlain b =
      if b.voice < 12 then .ok (plainStreamV b 0)
      else
        let voice := b.voice
        .error s!"voice index {voice} > 11" := by
  obtain ⟨hname, hcall, hpw, hcomm, hopt, hfh, haf, hdog, hcamp, hmed,
    hpic, hpatch, hpers, hsq, hv16⟩ := hc
  have hn' : b.name.length < 21 := by
    have := hname.1; simp [NAME_LEN] at this; omega
  have hc' : b.callsign.length < 13 := by
    have := hcall.1; simp [CALLSIGN_LEN] at this; omega
  have hp' : b.password.length ≤ 10 := by
    have := hpw.1; simp [PASSWORD_LEN] at this; omega
  have hco' : b.commissioned.length < 13 := by
    have := hcomm.1; simp [COMM_LEN] at this; omega
  have ho' : b.options_file.length < 13 := by
    have := hopt.1; simp [CALLSIGN_LEN] at this; omega
  have hpi' : b.picture_file.length < 33 := by
    have := hpic.1; simp [FILENAME_LEN] at this; omega
  have hpa' : b.patch_file.length < 33 := by
    have := hpatch.1; simp [FILENAME_LEN] at this; omega
  have hpe' : b.personal_text.length < 121 := by
    have := hpers.1; simp [PERSONAL_TEXT_LEN] at this; omega
  have hs' : b.squadron.length < 20 := by
    have := hsq.1; simp [NAME_LEN] at this; omega
  have lname : (padded b.name 21).length = 21 := padded_length (by omega)
  have lcall : (padded b.callsign 13).length = 13 := padded_length (by omega)
  have lpw : (xorPwFrom 0 (padded b.password 11)).length = 11 := by
    rw [xorPwFrom_length]; exact padded_length (by omega)
  have lcomm : (padded b.commissioned 13).length = 13 := padded_length (by omega)
  have lopt : (padded b.options_file 13).length = 13 := padded_length (by omega)
  have lpic : (padded b.picture_file 33).length = 33 := padded_length (by omega)
  have lpatch : (padded b.patch_file 33).length = 33 := padded_length (by omega)
  have lpers : (padded b.personal_text 121).length = 121 := padded_length (by omega)
  have lsq : (padded b.squadron 20).length = 20 := padded_length (by omega)
  have lmedals : (writeMedals b.medals Medals.all).length = 6 := by
    rw [writeMedals_length]; rfl
  simp [writePlain, write_padded_ok, write_password_ok, checkpoint, ok_bind,
    NAME_LEN, CALLSIGN_LEN, PASSWORD_LEN, COMM_LEN, FILENAME_LEN, PERSONAL_TEXT_LEN,
    hn', hc', hp', hco', ho', hpi', hpa', hpe', hs',
    lname, lcall, lpw, lcomm, lopt, lpic, lpatch, lpers, lsq, lmedals,
    encU32_length, encI32_length, encI16_length,
    dogfight_write_bytes_length, campaign_write_bytes_length,
    DogfightStats.BYTE_LEN, CampaignStats.BYTE_LEN,
    List.length_append, List.append_assoc, List.nil_append, plainStreamV]

theorem readExact_two (x y : Nat) (t : List Nat) (p : Nat) :
    readExact 2 (x :: y :: t, p) = .ok ([x, y], t, p + 2) := by
  simp [readExact]

theorem readExact_three (x y z : Nat) (t : List Nat) (p : Nat) :
    readExact 3 (x :: y :: z :: t, p) = .ok ([x, y, z], t, p + 3) := by
  simp [readExact]

theorem readExact_four (x y z w : Nat) (t : List Nat) (p : Nat) :
    readExact 4 (x :: y :: z :: w :: t, p) = .ok ([x, y, z, w], t, p + 4) := by
  simp [readExact]

/-- `Logbook::parse` up to the voice check, applied to the canonical plain
stream of a record satisfying all constraints except possibly the voice
range: it recovers the record exactly, or fails the voice check. -/
theorem parseBody_plainStreamV (b : Logbook) (hc : b.ValidCore) (ck : Nat) :
    parseBody (plainStreamV b ck) =
      if b.voice < 12 then .ok (b, encU32 ck, 368)
      else
        let voice := b.voice
        .error s!"voice index {voice} > 11" := by
  obtain ⟨hname, hcall, hpw, hcomm, hopt, hfh, haf, hdog, hcamp, hmed,
    hpic, hpatch, hpers, hsq, hv16⟩ := hc
  have hn' : b.name.length ≤ 20 := by have := hname.1; simpa [NAME_LEN] using this
  have hc' : b.callsign.length ≤ 12 := by have := hcall.1; simpa [CALLSIGN_LEN] using this
  have hp' : b.password.length ≤ 10 := by have := hpw.1; simpa [PASSWORD_LEN] using this
  have hco' : b.commissioned.length ≤ 12 := by have := hcomm.1; simpa [COMM_LEN] using this
  have ho' : b.options_file.length ≤ 12 := by have := hopt.1; simpa [CALLSIGN_LEN] using this
  have hpi' : b.picture_file.length ≤ 32 := by have := hpic.1; simpa [FILENAME_LEN] using this
  have hpa' : b.patch_file.length ≤ 32 := by have := hpatch.1; simpa [FILENAME_LEN] using this
  have hpe' : b.personal_text.length ≤ 120 := by
    have := hpers.1; simpa [PERSONAL_TEXT_LEN] using this
  have hs' : b.squadron.length ≤ 19 := by have := hsq.1; simpa [NAME_LEN] using this
  have lname : (padded b.name 21).length = 21 := padded_length (by omega)
  have lcall : (padded b.callsign 13).length = 13 := padded_length (by omega)
  have lpw : (xorPwFrom 0 (padded b.password 11)).length = 11 := by
    rw [xorPwFrom_length]; exact padded_length (by omega)
  have lcomm : (padded b.commissioned 13).length = 13 := padded_length (by omega)
  have lopt : (padded b.options_file 13).length = 13 := padded_length (by omega)
  have lpic : (padded b.picture_file 33).length = 33 := padded_length (by omega)
  have lpatch : (padded b.patch_file 33).length = 33 := padded_length (by omega)
  have lpers : (padded b.personal_text 121).length = 121 := padded_length (by omega)
  have lsq : (padded b.squadron 20).length = 20 := padded_length (by omega)
  have bname : buf_to_str (padded b.name 21) = .ok b.name :=
    buf_to_str_padded 21 hname.2.1 hname.2.2
  have bcall : buf_to_str (padded b.callsign 13) = .ok b.callsign :=
    buf_to_str_padded 13 hcall.2.1 hcall.2.2
  have bpw : buf_to_str (padded b.password 11) = .ok b.password :=
    buf_to_str_padded 11 hpw.2.1 hpw.2.2
  have bcomm : buf_to_str (padded b.commissioned 13) = .ok b.commissioned :=
    buf_to_str_padded 13 hcomm.2.1 hcomm.2.2
  have bopt : buf_to_str (padded b.options_file 13) = .ok b.options_file :=
    buf_to_str_padded 13 hopt.2.1 hopt.2.2
  have bpic : buf_to_str (padded b.picture_file 33) = .ok b.picture_file :=
    buf_to_str_padded 33 hpic.2.1 hpic.2.2
  have bpatch : buf_to_str (padded b.patch_file 33) = .ok b.patch_file :=
    buf_to_str_padded 33 hpatch.2.1 hpatch.2.2
  have bpers : buf_to_str (padded b.personal_text 121) = .ok b.personal_text :=
    buf_to_str_padded 121 hpers.2.1 hpers.2.2
  have bsq : buf_to_str (padded b.squadron 20) = .ok b.squadron :=
    buf_to_str_padded 20 hsq.2.1 hsq.2.2
  have hxpw : xor_password (xorPwFrom 0 (padded b.password 11)) =
      .ok (padded b.password 11) :=
    xor_password_masked (padded b.password 11) (padded_length (by omega))
      (getD_padded_of_le hp')
  have dfh : decU32 (encU32 b.flight_hours) = b.flight_hours := decU32_encU32 _ hfh
  have daf : decU32 (encU32 b.ace_factor) = b.ace_factor := decU32_encU32 _ haf
  have drk : decI32 (encI32 b.rank.toInt) = b.rank.toInt := by
    have := Rank.toInt_range b.rank
    exact decI32_encI32 _ (by omega) (by omega)
  have trk : Rank.tryFrom b.rank.toInt = some b.rank := Rank.tryFrom_toInt b.rank
  have hdr : DogfightStats.read_bytes b.dogfight_stats.write_bytes = b.dogfight_stats :=
    dogfight_read_write_bytes _ hdog
  have hcr : CampaignStats.read_bytes b.campaign_stats.write_bytes = b.campaign_stats :=
    campaign_read_write_bytes _ hcamp
  have hfil : Medals.all.filter (fun m => b.medals.contains m) = b.medals :=
    filter_contains_of_sublist _ _ hmed medals_all_nodup
  have hfil' : Medals.all.filter (fun m => decide (m ∈ b.medals)) = b.medals := by
    simpa using hfil
  have lmedals : Medals.all.length = 6 := rfl
  have dvc : decI16 (encI16 b.voice) = b.voice := decI16_encI16 _ hv16.1 hv16.2
  simp [parseBody, plainStreamV, readExact_append, readExact_exact, checkpoint, ok_bind,
    readExact_one, readExact_two, readExact_three, readExact_four,
    NAME_LEN, CALLSIGN_LEN, PASSWORD_LEN, COMM_LEN, FILENAME_LEN, PERSONAL_TEXT_LEN,
    DogfightStats.BYTE_LEN, CampaignStats.BYTE_LEN,
    dogfight_write_bytes_length, campaign_write_bytes_length,
    lname, lcall, lpw, lcomm, lopt, lpic, lpatch, lpers, lsq,
    bname, bcall, bpw, bcomm, bopt, bpic, bpatch, bpers, bsq,
    hxpw, dfh, daf, drk, trk, hdr, hcr, hfil, hfil', lmedals, dvc,
    readMedals_writeMedals, writeMedals_length,
    encU32_length, encI32_length, encI16_length, List.append_assoc]

/-- `Logbook::parse` (before de-obfuscation) on the canonical plain stream:
succeeds exactly when the sentinel is zero. -/
theorem parseAll_plainStreamV (b : Logbook) (hc : b.ValidCore) (hv : b.voice < 12)
    (ck : Nat) (hck : ck < 4294967296) :
    parseAll (plainStreamV b ck) =
      if ck = 0 then .ok (b, [], 372)
      else .error "Decryption failed - bad checksum" := by
  have hbody := parseBody_plainStreamV b hc ck
  rw [if_pos hv] at hbody
  have hdc : decU32 (encU32 ck) = ck := decU32_encU32 _ hck
  simp [parseAll, hbody, ok_bind, readExact_exact, encU32_length, hdc]

/-! ## Success inversion: what mere success of an operation forces -/

theorem bind_ok_inv {α β : Type} {e : Except String α} {f : α → Except String β} {v : β}
    (h : (e >>= f) = .ok v) : ∃ a, e = .ok a ∧ f a = .ok v := by
  cases e with
  | ok a => exact ⟨a, rfl, h⟩
  | error s =>
      rw [error_bind] at h
      exact absurd h (by simp)

theorem write_padded_len {acc s : List Nat} {w : Nat} {out : List Nat}
    (h : write_padded acc s w = .ok out) : out.length = acc.length + w := by
  unfold write_padded at h
  by_cases hc : s.length < w
  · rw [if_pos hc] at h
    injection h with h'
    subst h'
    simp [List.length_append]
    omega
  · rw [if_neg hc] at h
    exact absurd h (by simp)

theorem xor_password_len {pwb m : List Nat} (h : xor_password pwb = .ok m) :
    m.length = pwb.length := by
  unfold xor_password at h
  by_cases h1 : pwb.length = PASSWORD_LEN + 1
  · rw [if_pos h1] at h
    by_cases h2 : pwb.getD PASSWORD_LEN 0 = 0
    · rw [if_pos h2] at h
      injection h with h'
      subst h'
      exact xorPwFrom_length pwb 0
    · rw [if_neg h2] at h
      exact absurd h (by simp)
  · rw [if_neg h1] at h
    exact absurd h (by simp)

theorem write_password_len {acc pw out : List Nat}
    (h : write_password acc pw = .ok out) : out.length = acc.length + 11 := by
  unfold write_password at h
  by_cases hc : pw.length ≤ PASSWORD_LEN
  · rw [if_pos hc] at h
    rcases hx : xor_password (pw ++ List.replicate (PASSWORD_LEN + 1 - pw.length) 0) with e | m
    · rw [hx] at h
      exact absurd h (by simp)
    · rw [hx] at h
      injection h with h'
      subst h'
      have hm := xor_password_len hx
      simp only [List.length_append, List.length_replicate] at hm
      simp [List.length_append, hm]
      simp [PASSWORD_LEN] at hc ⊢
      omega
  · rw [if_neg hc] at h
    exact absurd h (by simp)

/-- Mere success of the writer forces the output to be 372 bytes and to
end in a zero 32-bit sentinel; no validity of the record is assumed. -/
theorem writePlain_ok_inv (b : Logbook) (plain : List Nat)
    (h : writePlain b = .ok plain) :
    plain.length = 372 ∧ ∃ pre, pre.length = 368 ∧ plain = pre ++ encU32 0 := by
  simp only [writePlain] at h
  obtain ⟨acc1, e1, h⟩ := bind_ok_inv h
  obtain ⟨acc2, e2, h⟩ := bind_ok_inv h
  obtain ⟨acc3, e3, h⟩ := bind_ok_inv h
  obtain ⟨acc4, e4, h⟩ := bind_ok_inv h
  obtain ⟨acc5, e5, h⟩ := bind_ok_inv h
  obtain ⟨u1, c1, h⟩ := bind_ok_inv h
  obtain ⟨u2, c2, h⟩ := bind_ok_inv h
  obtain ⟨u3, c3, h⟩ := bind_ok_inv h
  obtain ⟨u4, c4, h⟩ := bind_ok_inv h
  obtain ⟨acc6, e6, h⟩ := bind_ok_inv h
  obtain ⟨u5, c5, h⟩ := bind_ok_inv h
  obtain ⟨acc7, e7, h⟩ := bind_ok_inv h
  obtain ⟨acc8, e8, h⟩ := bind_ok_inv h
  obtain ⟨acc9, e9, h⟩ := bind_ok_inv h
  have L1 := write_padded_len e1
  have L2 := write_padded_len e2
  have L3 := write_password_len e3
  have L4 := write_padded_len e4
  have L5 := write_padded_len e5
  have L6 := write_padded_len e6
  have L7 := write_padded_len e7
  have L8 := write_padded_len e8
  have L9 := write_padded_len e9
  simp only [List.length_nil, List.length_append, List.length_cons,
    encU32_length, encI32_length, encI16_length,
    dogfight_write_bytes_length, campaign_write_bytes_length,
    DogfightStats.BYTE_LEN, CampaignStats.BYTE_LEN, writeMedals_length,
    NAME_LEN, CALLSIGN_LEN, PASSWORD_LEN, COMM_LEN, FILENAME_LEN,
    PERSONAL_TEXT_LEN] at L1 L2 L3 L4 L5 L6 L7 L8 L9
  split at h
  · injection h with h'
    subst h'
    refine ⟨?_, ⟨acc9 ++ encI16 b.voice, ?_, ?_⟩⟩
    · simp only [List.length_append, encI16_length, encU32_length]
      have hma : Medals.all.length = 6 := rfl
      simp only [hma] at L6 L7 L8 L9
      omega
    · simp only [List.length_append, encI16_length]
      have hma : Medals.all.length = 6 := rfl
      simp only [hma] at L6 L7 L8 L9
      omega
    · rw [List.append_assoc]
  · exact absurd h (by simp)

theorem readExact_inv {n : Nat} {s : List Nat × Nat} {a : List Nat} {s' : List Nat × Nat}
    (h : readExact n s = .ok (a, s')) :
    s'.2 = s.2 + n ∧ s.1.length = s'.1.length + n := by
  unfold readExact at h
  by_cases hc : n ≤ s.1.length
  · rw [if_pos hc] at h
    injection h with h'
    simp only [Prod.mk.injEq] at h'
    obtain ⟨ha, hs⟩ := h'
    subst hs
    refine ⟨rfl, ?_⟩
    simp only [List.length_drop]
    omega
  · rw [if_neg hc] at h
    exact absurd h (by simp)

theorem readMedals_inv :
    ∀ (ms : List Medals) (s : List Nat × Nat) (got : List Medals) (s' : List Nat × Nat),
      readMedals ms s = .ok (got, s') →
      s'.2 = s.2 + ms.length ∧ s.1.length = s'.1.length + ms.length := by
  intro ms
  induction ms with
  | nil =>
      intro s got s' h
      simp only [readMedals] at h
      injection h with h'
      simp only [Prod.mk.injEq] at h'
      obtain ⟨_, hs⟩ := h'
      subst hs
      simp
  | cons m ms ih =>
      intro s got s' h
      simp only [readMedals] at h
      obtain ⟨⟨bb, s1⟩, r1, h⟩ := bind_ok_inv h
      obtain ⟨⟨rest, s2⟩, r2, h⟩ := bind_ok_inv h
      have i1 := readExact_inv r1
      have i2 := ih s1 rest s2 r2
      have hs2 : s' = s2 := by
        split at h <;> (injection h with h'; simp only [Prod.mk.injEq] at h'; exact h'.2.symm)
      subst hs2
      simp only [List.length_cons]
      omega

/-- Mere success of the layout walker forces the reader to stop at
position 368 (before the sentinel), whatever the input stream was. -/
theorem parseBody_ok_inv (input : List Nat) (bk : Logbook) (rest : List Nat) (pos : Nat)
    (h : parseBody input = .ok (bk, rest, pos)) :
    pos = 368 ∧ input.length = rest.length + 368 := by
  simp only [parseBody] at h
  obtain ⟨⟨b1, s1⟩, r1, h⟩ := bind_ok_inv h
  obtain ⟨t1, _, h⟩ := bind_ok_inv h
  obtain ⟨⟨b2, s2⟩, r2, h⟩ := bind_ok_inv h
  obtain ⟨t2, _, h⟩ := bind_ok_inv h
  obtain ⟨⟨b3, s3⟩, r3, h⟩ := bind_ok_inv h
  obtain ⟨pb, _, h⟩ := bind_ok_inv h
  obtain ⟨t3, _, h⟩ := bind_ok_inv h
  obtain ⟨⟨b4, s4⟩, r4, h⟩ := bind_ok_inv h
  obtain ⟨t4, _, h⟩ := bind_ok_inv h
  obtain ⟨⟨b5, s5⟩, r5, h⟩ := bind_ok_inv h
  obtain ⟨t5, _, h⟩ := bind_ok_inv h
  obtain ⟨⟨b6, s6⟩, r6, h⟩ := bind_ok_inv h
  obtain ⟨⟨b7, s7⟩, r7, h⟩ := bind_ok_inv h
  obtain ⟨⟨b8, s8⟩, r8, h⟩ := bind_ok_inv h
  obtain ⟨⟨b9, s9⟩, r9, h⟩ := bind_ok_inv h
  rcases htf : Rank.tryFrom (decI32 (b9, s9).1) with _ | rk0
  · rw [htf] at h
    obtain ⟨y, ey, _⟩ := bind_ok_inv h
    exact absurd ey (by simp)
  rw [htf] at h
  obtain ⟨y, ey, h⟩ := bind_ok_inv h
  obtain ⟨u1, _, h⟩ := bind_ok_inv h
  obtain ⟨⟨b10, s10⟩, r10, h⟩ := bind_ok_inv h
  obtain ⟨u2, _, h⟩ := bind_ok_inv h
  obtain ⟨⟨b11, s11⟩, r11, h⟩ := bind_ok_inv h
  obtain ⟨⟨b12, s12⟩, r12, h⟩ := bind_ok_inv h
  obtain ⟨u3, _, h⟩ := bind_ok_inv h
  obtain ⟨⟨mgot, s13⟩, r13, h⟩ := bind_ok_inv h
  obtain ⟨⟨b14, s14⟩, r14, h⟩ := bind_ok_inv h
  obtain ⟨u4, _, h⟩ := bind_ok_inv h
  obtain ⟨⟨b15, s15⟩, r15, h⟩ := bind_ok_inv h
  obtain ⟨⟨b16, s16⟩, r16, h⟩ := bind_ok_inv h
  obtain ⟨t6, _, h⟩ := bind_ok_inv h
  obtain ⟨⟨b17, s17⟩, r17, h⟩ := bind_ok_inv h
  obtain ⟨u5, _, h⟩ := bind_ok_inv h
  obtain ⟨⟨b18, s18⟩, r18, h⟩ := bind_ok_inv h
  obtain ⟨⟨b19, s19⟩, r19, h⟩ := bind_ok_inv h
  obtain ⟨t7, _, h⟩ := bind_ok_inv h
  obtain ⟨⟨b20, s20⟩, r20, h⟩ := bind_ok_inv h
  obtain ⟨t8, _, h⟩ := bind_ok_inv h
  obtain ⟨⟨b21, s21⟩, r21, h⟩ := bind_ok_inv h
  obtain ⟨t9, _, h⟩ := bind_ok_inv h
  obtain ⟨⟨b22, s22⟩, r22, h⟩ := bind_ok_inv h
  have i1 := readExact_inv r1
  have i2 := readExact_inv r2
  have i3 := readExact_inv r3
  have i4 := readExact_inv r4
  have i5 := readExact_inv r5
  have i6 := readExact_inv r6
  have i7 := readExact_inv r7
  have i8 := readExact_inv r8
  have i9 := readExact_inv r9
  have i10 := readExact_inv r10
  have i11 := readExact_inv r11
  have i12 := readExact_inv r12
  have i13 := readMedals_inv _ _ _ _ r13
  have i14 := readExact_inv r14
  have i15 := readExact_inv r15
  have i16 := readExact_inv r16
  have i17 := readExact_inv r17
  have i18 := readExact_inv r18
  have i19 := readExact_inv r19
  have i20 := readExact_inv r20
  have i21 := readExact_inv r21
  have i22 := readExact_inv r22
  have hfin : s22 = (rest, pos) := by
    split at h
    · injection h with h'
      simp only [Prod.mk.injEq] at h'
      exact h'.2
    · exact absurd h (by simp)
  subst hfin
  simp only [NAME_LEN, CALLSIGN_LEN, PASSWORD_LEN, COMM_LEN, FILENAME_LEN,
    PERSONAL_TEXT_LEN, DogfightStats.BYTE_LEN, CampaignStats.BYTE_LEN] at *
  have hma : Medals.all.length = 6 := rfl
  rw [hma] at i13
  omega

/-- Mere success of `parse` (before de-obfuscation) forces exactly 372
bytes consumed. -/
theorem parseAll_ok_inv (input : List Nat) (bk : Logbook) (rest : List Nat) (pos : Nat)
    (h : parseAll input = .ok (bk, rest, pos)) :
    pos = 372 ∧ input.length = rest.length + 372 := by
  simp only [parseAll] at h
  obtain ⟨⟨bk0, rest0, pos0⟩, hb, h⟩ := bind_ok_inv h
  obtain ⟨⟨ckb, s2⟩, rck, h⟩ := bind_ok_inv h
  have ib := parseBody_ok_inv input bk0 rest0 pos0 hb
  have ick := readExact_inv rck
  have hfin : s2 = (rest, pos) := by
    split at h
    · injection h with h'
      simp only [Prod.mk.injEq] at h'
      exact h'.2
    · exact absurd h (by simp)
  subst hfin
  simp only at ick
  omega

end BmsLogcat


namespace BmsLogcat

/-! ## Concrete records and streams used by the witnesses -/

/-- A concrete valid record: name "Ace", callsign "VIPER1", password
"hunter2", medals {SilverStar, KoreaCampaign}, rank Captain. -/
def sampleBook : Logbook where
  name := [65, 99, 101]
  callsign := [86, 73, 80, 69, 82, 49]
  password := [104, 117, 110, 116, 101, 114, 50]
  commissioned := [48, 49, 47, 48, 50, 47, 50, 51]
  options_file := [86, 73, 80, 69, 82, 49]
  flight_hours := 1078530011
  ace_factor := 1065353216
  rank := .Captain
  dogfight_stats := ⟨1, 2, 3, 4, 5, 6, 7, -8⟩
  campaign_stats := ⟨1, 2, 3, 4, 100000, -70000, 7, 8, 9, 10, 11, 12, 13, 14, 15, 16, 17⟩
  medals := [.SilverStar, .KoreaCampaign]
  picture_file := [112, 46, 112, 110, 103]
  patch_file := [113, 46, 112, 110, 103]
  personal_text := [104, 105]
  squadron := [54, 54, 116, 104]
  voice := 3

/-- `sampleBook` with a negative voice index. -/
def sampleNegVoice : Logbook := { sampleBook with voice := -1 }

/-- `sampleBook` with voice index 20 (out of range). -/
def sampleBigVoice : Logbook := { sampleBook with voice := 20 }

/-- `sampleBook` with a 20-character squadron name ("AAAA…"). -/
def sampleSquad20 : Logbook := { sampleBook with squadron := List.replicate 20 65 }

/-- The encoding of `sampleBook`. -/
def goodStream : List Nat := encryptFrom 88 0 (plainStreamV sampleBook 0)

/-- The encoding of `sampleBook` with the reserved byte at plain offset 71
set to 7: still decodes, but is not re-produced by re-encoding. -/
def tamperedStream : List Nat := encryptFrom 88 0 ((plainStreamV sampleBook 0).set 71 7)

/-- The encoding of `sampleBook` with the on-disk rank integer set to 9. -/
def rankNineStream : List Nat := encryptFrom 88 0 ((plainStreamV sampleBook 0).set 80 9)

/-- The encoding of `sampleBook` with trailing sentinel 5 instead of 0. -/
def badCkStream : List Nat := encryptFrom 88 0 (plainStreamV sampleBook 5)

/-- The full round trip, shared by C1 and C3: a valid record that encodes
successfully is recovered exactly by decoding. -/
theorem parse_write_roundtrip (b : Logbook) (out : List Nat) (hv : b.Valid)
    (hw : Logbook.write b = .ok out) : Logbook.parse out = .ok b := by
  obtain ⟨hc, h0, h12⟩ := hv
  have hwp := writePlain_eq b hc
  rw [if_pos h12] at hwp
  unfold Logbook.write at hw
  rw [hwp] at hw
  simp only [Except.map] at hw
  rw [Except.ok.injEq] at hw
  rw [← hw]
  unfold Logbook.parse
  rw [decryptFrom_encryptFrom]
  rw [parseAll_plainStreamV b hc h12 0 (by norm_num)]
  rfl


/-! ## Supporting lemmas for the claims -/

theorem Rank.tryFrom_isSome_iff (n : Int) :
    (Rank.tryFrom n).isSome = true ↔ 0 ≤ n ∧ n < 7 := by
  unfold Rank.tryFrom
  split_ifs with h0 h1 h2 h3 h4 h5 h6 <;> simp <;> omega

theorem takeWhile_append_zero_cons {pre : List Nat} (hz : ∀ x ∈ pre, x ≠ 0)
    (suf : List Nat) :
    (pre ++ 0 :: suf).takeWhile (fun x => x != 0) = pre := by
  induction pre with
  | nil => simp [List.takeWhile_cons]
  | cons b rest ih =>
      have hb : b ≠ 0 := hz b (List.mem_cons_self b rest)
      simp only [List.cons_append, List.takeWhile_cons]
      simp [hb, ih fun x hx => hz x (List.mem_cons_of_mem b hx)]

/-! ## The claims -/

/-- C1: for every valid `LogbookRecord` (text fields within width limits,
free of interior NULs, password at most 10 bytes, voice in range), decoding
the byte stream produced by encoding it yields a record equal to it field
by field, including medal set membership and every statistic value. -/
theorem claim_C1 (b : Logbook) (out : List Nat) (hv : b.Valid)
    (hw : Logbook.write b = .ok out) : Logbook.parse out = .ok b :=
  parse_write_roundtrip b out hv hw

set_option maxRecDepth 1000000 in
theorem claim_C1_witness :
    sampleBook.Valid ∧ Logbook.parse goodStream = .ok sampleBook :=
  ⟨by decide, claim_C1 sampleBook goodStream (by decide) (by decide)⟩

/-- C2: for every byte sequence (including the empty one) and every initial
feedback-register state, the stream-cipher decode of the encode is the
identity, and so is the encode of the decode. -/
theorem claim_C2 (bs : List Nat) (start pos : Nat) :
    decryptFrom start pos (encryptFrom start pos bs) = bs ∧
    encryptFrom start pos (decryptFrom start pos bs) = bs :=
  ⟨decryptFrom_encryptFrom bs start pos, encryptFrom_decryptFrom bs start pos⟩

set_option maxRecDepth 1000000 in
/-- C3 counterexample: a 372-byte stream with a nonzero reserved byte
(plain offset 71) decodes successfully, but re-encoding the decoded record
does not reproduce it byte for byte. -/
theorem claim_C3_counterexample :
    Logbook.parse tamperedStream = .ok sampleBook ∧
    Logbook.write sampleBook ≠ .ok tamperedStream := by
  constructor
  · decide
  · decide

/-- C3 (amended): byte-for-byte symmetry holds for streams that are
themselves the encoding of a valid record: if such a stream decodes,
re-encoding the decoded record reproduces it exactly. -/
theorem claim_C3_amended (b0 r : Logbook) (bs : List Nat) (hv : b0.Valid)
    (hw : Logbook.write b0 = .ok bs) (hp : Logbook.parse bs = .ok r) :
    Logbook.write r = .ok bs := by
  have hpr := parse_write_roundtrip b0 bs hv hw
  rw [hpr] at hp
  rw [Except.ok.injEq] at hp
  rw [← hp]
  exact hw

set_option maxRecDepth 1000000 in
theorem claim_C3_witness :
    Logbook.write sampleBook = .ok goodStream :=
  claim_C3_amended sampleBook sampleBook goodStream (by decide) (by decide) (by decide)

set_option maxRecDepth 1000000 in
/-- C4 counterexample: a record with voice index -1 (outside 0..11)
encodes successfully, and its stream decodes successfully — the code only
checks `voice < 12` on the signed value, so negative indices pass. -/
theorem claim_C4_counterexample :
    Logbook.write sampleNegVoice = .ok (encryptFrom 88 0 (plainStreamV sampleNegVoice 0)) ∧
    Logbook.parse (encryptFrom 88 0 (plainStreamV sampleNegVoice 0)) = .ok sampleNegVoice := by
  constructor
  · decide
  · decide

/-- C4 (amended): on both encode and decode the voice index is accepted
exactly when it is at most 11 as a signed 16-bit value (negative values
are accepted); a voice index of 12 or more fails the operation with an
error naming the offending value. -/
theorem claim_C4_amended (b : Logbook) (ck : Nat) (hc : b.ValidCore) :
    writePlain b =
      (if b.voice < 12 then .ok (plainStreamV b 0)
       else
         let voice := b.voice
         .error s!"voice index {voice} > 11") ∧
    parseBody (plainStreamV b ck) =
      (if b.voice < 12 then .ok (b, encU32 ck, 368)
       else
         let voice := b.voice
         .error s!"voice index {voice} > 11") :=
  ⟨writePlain_eq b hc, parseBody_plainStreamV b hc ck⟩

set_option maxRecDepth 1000000 in
theorem claim_C4_witness :
    writePlain sampleBigVoice =
      (if sampleBigVoice.voice < 12 then .ok (plainStreamV sampleBigVoice 0)
       else
         let voice := sampleBigVoice.voice
         .error s!"voice index {voice} > 11") ∧
    parseBody (plainStreamV sampleBigVoice 0) =
      (if sampleBigVoice.voice < 12 then .ok (sampleBigVoice, encU32 0, 368)
       else
         let voice := sampleBigVoice.voice
         .error s!"voice index {voice} > 11") :=
  claim_C4_amended sampleBigVoice 0 (by decide)

set_option maxRecDepth 1000000 in
/-- C5: the rank conversion succeeds exactly on the 7 ordinals 0..6,
ordinal 2 is Captain; a stream whose de-obfuscated rank integer is 9 fails
decoding with the message "9 isn't a valid rank index", and the encoding
of a rank-Captain record decodes back to rank Captain. -/
theorem claim_C5 :
    (∀ n : Int, (Rank.tryFrom n).isSome = true ↔ 0 ≤ n ∧ n < 7) ∧
    Rank.tryFrom 2 = some Rank.Captain ∧
    Logbook.parse rankNineStream = .error "9 isn't a valid rank index" ∧
    (Logbook.parse goodStream).map Logbook.rank = .ok Rank.Captain := by
  refine ⟨Rank.tryFrom_isSome_iff, by decide, by decide, by decide⟩

set_option maxRecDepth 1000000 in
/-- C6 counterexample: a record whose squadron name is exactly 20
characters fails to encode (the writer requires strictly fewer than 20),
refuting "every squadron name of at most 20 characters encodes". -/
theorem claim_C6_counterexample : (Logbook.write sampleSquad20).isOk = false := by
  decide

/-- C6 (amended): every squadron name of at most 19 characters encodes
successfully and its on-disk field is exactly 20 bytes (`NAME_LEN`, with
no extra terminator byte beyond the width, unlike the other text fields
which occupy width+1); any squadron of 20 or more characters fails. -/
theorem claim_C6_amended (acc s : List Nat) (h : s.length ≤ 19) :
    write_padded acc s NAME_LEN = .ok (acc ++ padded s 20) ∧
    (padded s 20).length = 20 ∧
    ∀ s2 : List Nat, 20 ≤ s2.length → ∀ out, write_padded acc s2 NAME_LEN ≠ .ok out := by
  refine ⟨write_padded_ok acc s NAME_LEN (by simp [NAME_LEN]; omega),
    padded_length (by omega), ?_⟩
  intro s2 h2 out hok
  unfold write_padded at hok
  rw [if_neg (by simp [NAME_LEN]; omega)] at hok
  exact absurd hok (by simp)

theorem claim_C6_witness :
    write_padded [] [65] NAME_LEN = .ok ([] ++ padded [65] 20) ∧
    (padded [65] 20).length = 20 ∧
    ∀ s2 : List Nat, 20 ≤ s2.length → ∀ out, write_padded [] s2 NAME_LEN ≠ .ok out :=
  claim_C6_amended [] [65] (by decide)

/-- C7 counterexample: the campaign statistics block is not 13×int16 +
2×int32 = 34 bytes. -/
theorem claim_C7_counterexample :
    ¬ ((CampaignStats.write_bytes sampleBook.campaign_stats).length = 13 * 2 + 2 * 4) := by
  decide

/-- C7 (amended): the campaign statistics block consists of 15
little-endian 16-bit signed integers and 2 little-endian 32-bit signed
integers interleaved in the declared field order, so it occupies
15×2 + 2×4 = 38 bytes, and it round-trips. -/
theorem claim_C7_amended (cs : CampaignStats) (h : cs.Ok) :
    cs.write_bytes.length = 15 * 2 + 2 * 4 ∧
    CampaignStats.BYTE_LEN = 15 * 2 + 2 * 4 ∧
    CampaignStats.read_bytes cs.write_bytes = cs := by
  refine ⟨?_, rfl, campaign_read_write_bytes cs h⟩
  rw [campaign_write_bytes_length]
  rfl

theorem claim_C7_witness :
    (CampaignStats.write_bytes sampleBook.campaign_stats).length = 15 * 2 + 2 * 4 ∧
    CampaignStats.BYTE_LEN = 15 * 2 + 2 * 4 ∧
    CampaignStats.read_bytes (CampaignStats.write_bytes sampleBook.campaign_stats) =
      sampleBook.campaign_stats :=
  claim_C7_amended sampleBook.campaign_stats (by decide)

/-- C8 counterexample: bytes after the first zero byte can change the
result of decoding a text buffer: an invalid UTF-8 byte after the
terminator makes `buf_to_str` fail, while a zero there succeeds. -/
theorem claim_C8_counterexample :
    buf_to_str [65, 0, 255] ≠ buf_to_str [65, 0, 0] ∧
    buf_to_str [65, 0, 0] = .ok [65] := by
  constructor
  · decide
  · decide

/-- C8 (amended): decoding truncates at the first zero byte — the logical
value is exactly the bytes before the first zero — and the bytes after the
first zero do not affect the decoded value, provided the whole buffer
remains valid UTF-8 (the whole buffer is validated before truncation). -/
theorem claim_C8_amended (pre suf1 suf2 : List Nat) (hz : ∀ x ∈ pre, x ≠ 0)
    (h1 : validUtf8 (pre ++ 0 :: suf1) = true)
    (h2 : validUtf8 (pre ++ 0 :: suf2) = true) :
    buf_to_str (pre ++ 0 :: suf1) = .ok pre ∧
    buf_to_str (pre ++ 0 :: suf1) = buf_to_str (pre ++ 0 :: suf2) := by
  have e1 : buf_to_str (pre ++ 0 :: suf1) = .ok pre := by
    unfold buf_to_str
    rw [if_pos h1, takeWhile_append_zero_cons hz]
  have e2 : buf_to_str (pre ++ 0 :: suf2) = .ok pre := by
    unfold buf_to_str
    rw [if_pos h2, takeWhile_append_zero_cons hz]
  exact ⟨e1, e1.trans e2.symm⟩

theorem claim_C8_witness :
    buf_to_str ([65] ++ 0 :: [66]) = .ok [65] ∧
    buf_to_str ([65] ++ 0 :: [66]) = buf_to_str ([65] ++ 0 :: [0]) :=
  claim_C8_amended [65] [66] [0] (by decide) (by decide) (by decide)

/-- C9: every successfully encoded stream ends in 4 bytes that
de-obfuscate to the 32-bit integer zero; and whenever the layout walker
reaches the sentinel and its de-obfuscated 4 bytes do not decode to zero,
decoding fails with the corruption/key-mismatch error. -/
theorem claim_C9 :
    (∀ (b : Logbook) (out : List Nat), Logbook.write b = .ok out →
      (decryptFrom 88 0 out).drop (out.length - 4) = encU32 0 ∧
      decU32 ((decryptFrom 88 0 out).drop (out.length - 4)) = 0) ∧
    (∀ (bs : List Nat) (bk : Logbook) (rest : List Nat) (pos : Nat)
        (ckb : List Nat) (s2 : List Nat × Nat),
      parseBody (decryptFrom 88 0 bs) = .ok (bk, rest, pos) →
      readExact 4 (rest, pos) = .ok (ckb, s2) →
      decU32 ckb ≠ 0 →
      Logbook.parse bs = .error "Decryption failed - bad checksum") := by
  constructor
  · intro b out hw
    unfold Logbook.write at hw
    rcases hwp : writePlain b with e | plain
    · rw [hwp] at hw
      exact absurd hw (by simp [Except.map])
    · rw [hwp] at hw
      simp only [Except.map] at hw
      rw [Except.ok.injEq] at hw
      obtain ⟨hlen, pre, hprelen, hsh⟩ := writePlain_ok_inv b plain hwp
      have hout_len : (encryptFrom 88 0 plain).length = 372 := by
        rw [encryptFrom_length, hlen]
      rw [← hw, hout_len, decryptFrom_encryptFrom, hsh]
      have h368 : (372 : Nat) - 4 = pre.length := by omega
      rw [h368, List.drop_left' rfl]
      exact ⟨rfl, by decide⟩
  · intro bs bk rest pos ckb s2 hbody hread hck
    unfold Logbook.parse parseAll
    rw [hbody]
    simp only [ok_bind]
    rw [hread]
    simp only [ok_bind]
    rw [if_neg hck]
    rfl

set_option maxRecDepth 1000000 in
theorem claim_C9_witness :
    ((decryptFrom 88 0 goodStream).drop (goodStream.length - 4) = encU32 0 ∧
      decU32 ((decryptFrom 88 0 goodStream).drop (goodStream.length - 4)) = 0) ∧
    Logbook.parse badCkStream = .error "Decryption failed - bad checksum" :=
  ⟨claim_C9.1 sampleBook goodStream (by decide),
   claim_C9.2 badCkStream sampleBook [5, 0, 0, 0] 368 [5, 0, 0, 0] ([], 372)
     (by decide) (by decide) (by decide)⟩

/-- C10: a successfully encoded stream is always exactly 372 bytes, and a
successful decode always consumes exactly 372 bytes of the input,
independent of the record contents. -/
theorem claim_C10 :
    (∀ (b : Logbook) (out : List Nat), Logbook.write b = .ok out → out.length = 372) ∧
    (∀ (bs : List Nat) (bk : Logbook) (rest : List Nat) (pos : Nat),
      parseAll (decryptFrom 88 0 bs) = .ok (bk, rest, pos) →
      pos = 372 ∧ bs.length = rest.length + 372) := by
  constructor
  · intro b out hw
    unfold Logbook.write at hw
    rcases hwp : writePlain b with e | plain
    · rw [hwp] at hw
      exact absurd hw (by simp [Except.map])
    · rw [hwp] at hw
      simp only [Except.map] at hw
      rw [Except.ok.injEq] at hw
      obtain ⟨hlen, _⟩ := writePlain_ok_inv b plain hwp
      rw [← hw, encryptFrom_length, hlen]
  · intro bs bk rest pos h
    have hinv := parseAll_ok_inv _ _ _ _ h
    rwa [decryptFrom_length] at hinv

set_option maxRecDepth 1000000 in
theorem claim_C10_witness :
    goodStream.length = 372 ∧
    (372 = 372 ∧ goodStream.length = ([] : List Nat).length + 372) :=
  ⟨claim_C10.1 sampleBook goodStream (by decide),
   claim_C10.2 goodStream sampleBook [] 372 (by decide)⟩

theorem claim_C5_witness : (Rank.tryFrom 3).isSome = true :=
  (claim_C5.1 3).mpr (by decide)

end BmsLogcat
